import Mathlib

/-!
Verification of the rust-id3 cross-version orchestration layer (src/v1v2.rs)
together with spec-modelled components of the ID3v2 codec that the layer
orchestrates (syncsafe integers, text encodings, unsynchronisation, the
storage splicer, tag serialization and parsing, and the ID3v1 boundary).

Files present in the repository source are embedded directly; components
that the repository only declares (the codec internals) are modelled from
the specification and are marked as such in their doc comments.
-/

namespace Id3

/-- Error kinds of the library (spec section 7). -/
inductive ErrorKind where
  | NoTag
  | UnsupportedVersion
  | Parsing
  | UnsupportedFeature
  | StringDecoding
  | Io
  deriving DecidableEq, Repr

/-- An error value: a kind together with a human readable description,
mirroring the `Error` struct used throughout the crate. -/
structure Error where
  kind : ErrorKind
  description : String
  deriving DecidableEq, Repr

/-- Presence state of the two tag format versions, from src/v1v2.rs
(`FormatVersion`). -/
inductive FormatVersion where
  | None
  | Id3v1
  | Id3v2
  | Both
  deriving DecidableEq, Repr

/-! ## Syncsafe integers -/

/-- Modelled from the spec: syncsafe integers encode 28 significant bits
across 4 bytes, 7 bits per byte, with the high bit of each byte always zero
(spec sections 4.5 and 8; the codec source is not present under src/).
The numerals are 2 ^ 21, 2 ^ 14 and 2 ^ 7. -/
def encodeSyncsafe (n : Nat) : List Nat :=
  [n / 2097152 % 128, n / 16384 % 128, n / 128 % 128, n % 128]

/-- Modelled from the spec: decoding a syncsafe integer rejects any byte with
the high bit set (that is, any byte that is at least 128) and otherwise
reassembles the four 7-bit groups (spec sections 4.5 and 8). -/
def decodeSyncsafe (bs : List Nat) : Option Nat :=
  match bs with
  | [a, b, c, d] =>
    if a < 128 ∧ b < 128 ∧ c < 128 ∧ d < 128 then
      some (a * 2097152 + b * 16384 + c * 128 + d)
    else none
  | _ => none

/-! ## Whole-tag unsynchronisation -/

/-- Modelled from the spec: writing unsynchronisation re-inserts a 0x00 after
every 0xFF byte that is followed by a byte at least 0xE0 or by another
0xFF or 0x00 (spec section 4.5); since 0xFF itself is at least 0xE0 the
predicate is: next byte at least 224, or next byte equal to 0. -/
def applyUnsynch : List Nat → List Nat
  | [] => []
  | [a] => [a]
  | a :: b :: rest =>
    if a = 255 ∧ (224 ≤ b ∨ b = 0) then 255 :: 0 :: applyUnsynch (b :: rest)
    else a :: applyUnsynch (b :: rest)

/-- Modelled from the spec: removing unsynchronisation removes every
0xFF 0x00 pair, replacing it with 0xFF (spec section 4.5). -/
def removeUnsynch : List Nat → List Nat
  | [] => []
  | [a] => [a]
  | a :: b :: rest =>
    if a = 255 ∧ b = 0 then 255 :: removeUnsynch rest
    else a :: removeUnsynch (b :: rest)

/-- Whether a buffer contains a 0xFF 0x00 pair. -/
def hasFF00 : List Nat → Bool
  | a :: b :: rest => (a = 255 && b = 0) || hasFF00 (b :: rest)
  | _ => false

/-- The byte-stuffing transform always keeps the head byte in place. -/
theorem applyUnsynch_cons (b : Nat) (rest : List Nat) :
    ∃ t, applyUnsynch (b :: rest) = b :: t := by
  cases rest with
  | nil => exact ⟨[], rfl⟩
  | cons c r =>
    by_cases h : b = 255 ∧ (224 ≤ c ∨ c = 0)
    · exact ⟨0 :: applyUnsynch (c :: r), by rw [applyUnsynch, if_pos h, h.1]⟩
    · exact ⟨applyUnsynch (c :: r), by rw [applyUnsynch, if_neg h]⟩

/-- Removing unsynchronisation undoes applying it. -/
theorem removeUnsynch_applyUnsynch : ∀ l : List Nat, removeUnsynch (applyUnsynch l) = l := by
  intro l
  induction l with
  | nil => rfl
  | cons a tail ih =>
    cases tail with
    | nil => rfl
    | cons b rest =>
      by_cases h : a = 255 ∧ (224 ≤ b ∨ b = 0)
      · rw [applyUnsynch, if_pos h, removeUnsynch, if_pos ⟨rfl, rfl⟩, ih, h.1]
      · rw [applyUnsynch, if_neg h]
        obtain ⟨t, ht⟩ := applyUnsynch_cons b rest
        rw [ht, removeUnsynch, if_neg, ← ht, ih]
        rintro ⟨ha, hb⟩
        exact h ⟨ha, Or.inr hb⟩

/-- A buffer without a 0xFF 0x00 pair is a fixed point of removal. -/
theorem removeUnsynch_of_not_hasFF00 :
    ∀ l : List Nat, hasFF00 l = false → removeUnsynch l = l := by
  intro l
  induction l with
  | nil => intro _; rfl
  | cons a tail ih =>
    cases tail with
    | nil => intro _; rfl
    | cons b rest =>
      intro h
      rw [hasFF00] at h
      simp only [Bool.or_eq_false_iff, Bool.and_eq_false_iff] at h
      rw [removeUnsynch, if_neg, ih h.2]
      rintro ⟨ha, hb⟩
      rcases h.1 with h1 | h1 <;> simp [ha, hb] at h1

/-! ## Storage splicer -/

/-- Modelled from the spec: the splice step of the Storage Splicer
(spec section 4.6, step 4). If the new serialized tag fits inside the old
tag region, the new bytes are written at offset 0 and the remainder of the
old region is padded with zero bytes; nothing beyond the old region is
touched. If it does not fit, the trailing content is shifted forward so
that it starts right after the new tag bytes. -/
def spliceTag (f : List Nat) (oldEnd : Nat) (newTag : List Nat) : List Nat :=
  if newTag.length ≤ oldEnd then
    newTag ++ List.replicate (oldEnd - newTag.length) 0 ++ f.drop oldEnd
  else
    newTag ++ f.drop oldEnd

/-- Both branches of the splice agree with a single padded form, since the
padding is empty whenever the new tag is larger than the old region. -/
theorem spliceTag_eq (f : List Nat) (oldEnd : Nat) (newTag : List Nat) :
    spliceTag f oldEnd newTag =
      newTag ++ List.replicate (oldEnd - newTag.length) 0 ++ f.drop oldEnd := by
  by_cases h : newTag.length ≤ oldEnd
  · rw [spliceTag, if_pos h]
  · rw [spliceTag, if_neg h, Nat.sub_eq_zero_of_le (Nat.le_of_not_le h)]
    simp

/-- Every list of length four is an explicit four element list. -/
theorem list_length_eq_four {α : Type} {l : List α} (h : l.length = 4) :
    ∃ a b c d, l = [a, b, c, d] := by
  match l, h with
  | [a, b, c, d], _ => exact ⟨a, b, c, d, rfl⟩

/-- Decoding the four 7-bit components of a 28-bit number recovers it. -/
theorem decodeSyncsafe_components (n : Nat) (hn : n < 268435456) :
    decodeSyncsafe [n / 2097152 % 128, n / 16384 % 128, n / 128 % 128, n % 128] = some n := by
  rw [decodeSyncsafe, if_pos]
  · congr 1
    omega
  · refine ⟨?_, ?_, ?_, ?_⟩ <;> omega

/-- C5: Syncsafe integer encoding and decoding are mutually inverse bijections
on the 28-bit integer domain (numbers below 268435456 = 2 ^ 28), and decoding
fails for every 4-byte sequence in which any byte has its high bit set. -/
theorem syncsafe_bijection :
    (∀ n : Nat, n < 268435456 → decodeSyncsafe (encodeSyncsafe n) = some n) ∧
    (∀ (bs : List Nat) (n : Nat), decodeSyncsafe bs = some n →
      n < 268435456 ∧ encodeSyncsafe n = bs) ∧
    (∀ bs : List Nat, bs.length = 4 → (∃ b ∈ bs, 128 ≤ b) → decodeSyncsafe bs = none) := by
  refine ⟨?_, ?_, ?_⟩
  · intro n hn
    rw [encodeSyncsafe]
    exact decodeSyncsafe_components n hn
  · intro bs n h
    match bs with
    | [] => simp [decodeSyncsafe] at h
    | [a] => simp [decodeSyncsafe] at h
    | [a, b] => simp [decodeSyncsafe] at h
    | [a, b, c] => simp [decodeSyncsafe] at h
    | a :: b :: c :: d :: e :: tl => simp [decodeSyncsafe] at h
    | [a, b, c, d] =>
      rw [decodeSyncsafe] at h
      by_cases hc : a < 128 ∧ b < 128 ∧ c < 128 ∧ d < 128
      · rw [if_pos hc] at h
        obtain ⟨rfl⟩ : a * 2097152 + b * 16384 + c * 128 + d = n := Option.some.inj h
        obtain ⟨h1, h2, h3, h4⟩ := hc
        constructor
        · omega
        · rw [encodeSyncsafe]
          simp only [List.cons.injEq, and_true]
          refine ⟨?_, ?_, ?_, ?_⟩ <;> omega
      · rw [if_neg hc] at h
        exact absurd h Option.noConfusion
  · intro bs hlen hb
    obtain ⟨a, b, c, d, rfl⟩ := list_length_eq_four hlen
    rw [decodeSyncsafe, if_neg]
    intro hc
    obtain ⟨x, hx, hx128⟩ := hb
    simp only [List.mem_cons, List.not_mem_nil, or_false] at hx
    rcases hx with rfl | rfl | rfl | rfl <;> omega

/-- Evaluation of the syncsafe bijection at concrete inputs. -/
theorem syncsafe_bijection_witness :
    decodeSyncsafe (encodeSyncsafe 12345678) = some 12345678 ∧
    decodeSyncsafe [0, 0, 255, 0] = none :=
  ⟨syncsafe_bijection.1 12345678 (by norm_num),
   syncsafe_bijection.2.2 [0, 0, 255, 0] (by decide) ⟨255, by decide, by decide⟩⟩

/-- C8: applying whole-tag unsynchronisation and then removing it yields the
original buffer, and removing unsynchronisation is idempotent on any buffer
that contains no 0xFF 0x00 pair. -/
theorem unsynch_apply_remove :
    (∀ l : List Nat, removeUnsynch (applyUnsynch l) = l) ∧
    (∀ l : List Nat, hasFF00 l = false →
      removeUnsynch (removeUnsynch l) = removeUnsynch l) := by
  constructor
  · exact removeUnsynch_applyUnsynch
  · intro l h
    rw [removeUnsynch_of_not_hasFF00 l h, removeUnsynch_of_not_hasFF00 l h]

/-- Evaluation of the unsynchronisation round trip at a concrete buffer. -/
theorem unsynch_apply_remove_witness :
    removeUnsynch (applyUnsynch [255, 0, 255, 255, 224, 17]) = [255, 0, 255, 255, 224, 17] ∧
    removeUnsynch (removeUnsynch [255, 1, 0, 255]) = removeUnsynch [255, 1, 0, 255] :=
  ⟨unsynch_apply_remove.1 [255, 0, 255, 255, 224, 17],
   unsynch_apply_remove.2 [255, 1, 0, 255] (by decide)⟩

/-- C6: if the new serialized tag fits in the old tag region, every byte from
the old tag end onward is unchanged by the splice; if it is larger, the
trailing payload bytes are byte-identical but start exactly at the new
length, that is, they are shifted forward by the new length minus the old
tag end. -/
theorem spliceTag_payload (f newTag : List Nat) (oldEnd : Nat) :
    (newTag.length ≤ oldEnd →
      (spliceTag f oldEnd newTag).drop oldEnd = f.drop oldEnd) ∧
    (oldEnd < newTag.length →
      (spliceTag f oldEnd newTag).drop newTag.length = f.drop oldEnd) := by
  constructor
  · intro h
    rw [spliceTag, if_pos h]
    have hlen : (newTag ++ List.replicate (oldEnd - newTag.length) 0).length = oldEnd := by
      simp only [List.length_append, List.length_replicate]
      omega
    rw [List.drop_left' hlen]
  · intro h
    rw [spliceTag, if_neg (Nat.not_le_of_lt h), List.drop_left' rfl]

/-- Evaluation of the splice payload preservation at concrete inputs. -/
theorem spliceTag_payload_witness :
    (spliceTag [9, 9, 9, 7, 7] 3 [1]).drop 3 = [7, 7] ∧
    (spliceTag [9, 9, 9, 7, 7] 3 [1, 2, 3, 4, 5]).drop 5 = [7, 7] :=
  ⟨(spliceTag_payload [9, 9, 9, 7, 7] [1] 3).1 (by decide),
   (spliceTag_payload [9, 9, 9, 7, 7] [1, 2, 3, 4, 5] 3).2 (by decide)⟩

/-! ## Text encodings -/

/-- The four supported text encodings (spec section 3, `Encoding`). -/
inductive Encoding where
  | Latin1
  | UTF16
  | UTF16BE
  | UTF8
  deriving DecidableEq, Repr

/-- A Unicode scalar value: below 0x110000 and not a surrogate. Text is
modelled as a list of scalar values. -/
def ValidScalar (c : Nat) : Prop := c < 1114112 ∧ (c < 55296 ∨ 57344 ≤ c)

instance : DecidablePred ValidScalar := fun c =>
  inferInstanceAs (Decidable (c < 1114112 ∧ (c < 55296 ∨ 57344 ≤ c)))

/-- Modelled from the spec: Latin1 maps byte-for-byte to Unicode code points
0 to 255 (spec section 4.1); encoding a string containing a code point
outside that range fails. -/
def latin1Encode (s : List Nat) : Option (List Nat) :=
  if ∀ c ∈ s, c < 256 then some s else none

/-- Modelled from the spec: Latin1 decoding maps each byte to the code point
of the same value (spec section 4.1). -/
def latin1Decode (bs : List Nat) : Option (List Nat) := some bs

/-- Modelled from the spec: the standard UTF-8 encoding of one scalar value
(spec section 4.1; the Encoding Converter source is not under src/). -/
def utf8EncodeChar (c : Nat) : List Nat :=
  if c < 128 then [c]
  else if c < 2048 then [192 + c / 64, 128 + c % 64]
  else if c < 65536 then [224 + c / 4096, 128 + c / 64 % 64, 128 + c % 64]
  else [240 + c / 262144, 128 + c / 4096 % 64, 128 + c / 64 % 64, 128 + c % 64]

/-- UTF-8 encoding of a string, character by character. -/
def utf8Encode : List Nat → List Nat
  | [] => []
  | c :: cs => utf8EncodeChar c ++ utf8Encode cs

/-- Whether a byte is a UTF-8 continuation byte. -/
def isCont (b : Nat) : Bool := decide (128 ≤ b) && decide (b < 192)

/-- The code point of a two byte UTF-8 sequence. -/
def utf8Char2 (b0 b1 : Nat) : Nat := (b0 - 192) * 64 + (b1 - 128)

/-- The code point of a three byte UTF-8 sequence. -/
def utf8Char3 (b0 b1 b2 : Nat) : Nat := (b0 - 224) * 4096 + (b1 - 128) * 64 + (b2 - 128)

/-- The code point of a four byte UTF-8 sequence. -/
def utf8Char4 (b0 b1 b2 b3 : Nat) : Nat :=
  (b0 - 240) * 262144 + (b1 - 128) * 4096 + (b2 - 128) * 64 + (b3 - 128)

/-- Strict validity of a two byte UTF-8 sequence: a continuation byte and no
overlong form. -/
def utf8Cond2 (b0 b1 : Nat) : Prop := isCont b1 = true ∧ 128 ≤ utf8Char2 b0 b1

instance (b0 b1 : Nat) : Decidable (utf8Cond2 b0 b1) :=
  inferInstanceAs (Decidable (_ ∧ _))

/-- Strict validity of a three byte UTF-8 sequence: continuation bytes, no
overlong form and no surrogate code point. -/
def utf8Cond3 (b0 b1 b2 : Nat) : Prop :=
  isCont b1 = true ∧ isCont b2 = true ∧ 2048 ≤ utf8Char3 b0 b1 b2 ∧
    (utf8Char3 b0 b1 b2 < 55296 ∨ 57344 ≤ utf8Char3 b0 b1 b2)

instance (b0 b1 b2 : Nat) : Decidable (utf8Cond3 b0 b1 b2) :=
  inferInstanceAs (Decidable (_ ∧ _))

/-- Strict validity of a four byte UTF-8 sequence: continuation bytes, no
overlong form and a code point in range. -/
def utf8Cond4 (b0 b1 b2 b3 : Nat) : Prop :=
  isCont b1 = true ∧ isCont b2 = true ∧ isCont b3 = true ∧
    65536 ≤ utf8Char4 b0 b1 b2 b3 ∧ utf8Char4 b0 b1 b2 b3 < 1114112

instance (b0 b1 b2 b3 : Nat) : Decidable (utf8Cond4 b0 b1 b2 b3) :=
  inferInstanceAs (Decidable (_ ∧ _))

/-- Decoding step for a two byte UTF-8 sequence after its lead byte. -/
def utf8Step2 (b0 : Nat) (rest : List Nat) : Option (Nat × List Nat) :=
  match rest with
  | b1 :: rest1 => if utf8Cond2 b0 b1 then some (utf8Char2 b0 b1, rest1) else none
  | [] => none

/-- Decoding step for a three byte UTF-8 sequence after its lead byte. -/
def utf8Step3 (b0 : Nat) (rest : List Nat) : Option (Nat × List Nat) :=
  match rest with
  | b1 :: b2 :: rest2 => if utf8Cond3 b0 b1 b2 then some (utf8Char3 b0 b1 b2, rest2) else none
  | _ => none

/-- Decoding step for a four byte UTF-8 sequence after its lead byte. -/
def utf8Step4 (b0 : Nat) (rest : List Nat) : Option (Nat × List Nat) :=
  match rest with
  | b1 :: b2 :: b3 :: rest3 =>
    if utf8Cond4 b0 b1 b2 b3 then some (utf8Char4 b0 b1 b2 b3, rest3) else none
  | _ => none

/-- One step of strict UTF-8 decoding: one code point and the unconsumed
remainder, or a failure. -/
def utf8Step : List Nat → Option (Nat × List Nat)
  | [] => none
  | b0 :: rest =>
    if b0 < 128 then some (b0, rest)
    else if b0 < 192 then none
    else if b0 < 224 then utf8Step2 b0 rest
    else if b0 < 240 then utf8Step3 b0 rest
    else if b0 < 248 then utf8Step4 b0 rest
    else none

/-- The UTF-8 decoding loop, with fuel bounding the number of decoded
characters; the fuel is instantiated with the buffer length, which every
step strictly decreases. -/
def utf8DecodeF : Nat → List Nat → Option (List Nat)
  | _, [] => some []
  | 0, _ :: _ => none
  | fuel + 1, b0 :: rest =>
    match utf8Step (b0 :: rest) with
    | some (c, r) => (utf8DecodeF fuel r).map (fun s => c :: s)
    | none => none

/-- Modelled from the spec: strict UTF-8 validation (spec section 4.1);
overlong forms, surrogate code points, out of range values, truncated
sequences and stray continuation bytes all fail decoding. -/
def utf8Decode (bs : List Nat) : Option (List Nat) := utf8DecodeF bs.length bs

/-- Modelled from the spec: the UTF-16 code units of one scalar value, a
single unit below 0x10000 and a surrogate pair above. -/
def utf16EncodeChar (c : Nat) : List Nat :=
  if c < 65536 then [c]
  else [55296 + (c - 65536) / 1024, 56320 + (c - 65536) % 1024]

/-- UTF-16 code units of a string, character by character. -/
def utf16EncodeUnits : List Nat → List Nat
  | [] => []
  | c :: cs => utf16EncodeChar c ++ utf16EncodeUnits cs

/-- The scalar value of a UTF-16 surrogate pair. -/
def utf16Pair (u u2 : Nat) : Nat := 65536 + (u - 55296) * 1024 + (u2 - 56320)

/-- Modelled from the spec: decoding UTF-16 code units back to scalar values;
a lone surrogate fails. -/
def utf16DecodeUnits : List Nat → Option (List Nat)
  | [] => some []
  | u :: rest =>
    if u < 55296 ∨ 57344 ≤ u then (utf16DecodeUnits rest).map (fun s => u :: s)
    else if u < 56320 then
      match rest with
      | u2 :: rest2 =>
        if 56320 ≤ u2 ∧ u2 < 57344 then
          (utf16DecodeUnits rest2).map (fun s => utf16Pair u u2 :: s)
        else none
      | [] => none
    else none

/-- Big-endian byte serialization of 16-bit code units. -/
def bytesOfUnitsBE : List Nat → List Nat
  | [] => []
  | u :: rest => u / 256 :: u % 256 :: bytesOfUnitsBE rest

/-- Big-endian byte deserialization of 16-bit code units; an odd byte length
fails (spec section 4.1). -/
def unitsOfBytesBE : List Nat → Option (List Nat)
  | [] => some []
  | [_] => none
  | b0 :: b1 :: rest => (unitsOfBytesBE rest).map (fun us => (b0 * 256 + b1) :: us)

/-- Little-endian byte deserialization of 16-bit code units; an odd byte
length fails (spec section 4.1). -/
def unitsOfBytesLE : List Nat → Option (List Nat)
  | [] => some []
  | [_] => none
  | b0 :: b1 :: rest => (unitsOfBytesLE rest).map (fun us => (b1 * 256 + b0) :: us)

/-- UTF-16BE without byte order mark (spec section 4.1). -/
def utf16beEncode (s : List Nat) : List Nat := bytesOfUnitsBE (utf16EncodeUnits s)

/-- UTF-16BE decoding without byte order mark. -/
def utf16beDecode (bs : List Nat) : Option (List Nat) :=
  (unitsOfBytesBE bs).bind utf16DecodeUnits

/-- Modelled from the spec: UTF-16 with byte order mark; writing emits the
big-endian mark 0xFE 0xFF followed by big-endian units. -/
def utf16Encode (s : List Nat) : List Nat :=
  254 :: 255 :: bytesOfUnitsBE (utf16EncodeUnits s)

/-- Modelled from the spec: UTF-16 decoding requires a recognized 2-byte
byte order mark and fails otherwise (spec section 4.1). -/
def utf16Decode : List Nat → Option (List Nat)
  | m0 :: m1 :: rest =>
    if m0 = 254 ∧ m1 = 255 then (unitsOfBytesBE rest).bind utf16DecodeUnits
    else if m0 = 255 ∧ m1 = 254 then (unitsOfBytesLE rest).bind utf16DecodeUnits
    else none
  | [] => none
  | [_] => none

/-- Encoding dispatch over the `Encoding` enum; only Latin1 can fail. -/
def encodeText : Encoding → List Nat → Option (List Nat)
  | Encoding.Latin1, s => latin1Encode s
  | Encoding.UTF16, s => some (utf16Encode s)
  | Encoding.UTF16BE, s => some (utf16beEncode s)
  | Encoding.UTF8, s => some (utf8Encode s)

/-- Decoding dispatch over the `Encoding` enum. -/
def decodeText : Encoding → List Nat → Option (List Nat)
  | Encoding.Latin1, bs => latin1Decode bs
  | Encoding.UTF16, bs => utf16Decode bs
  | Encoding.UTF16BE, bs => utf16beDecode bs
  | Encoding.UTF8, bs => utf8Decode bs

/-- A string is expressible in Latin1 when all code points are below 256, and
in the Unicode transformation formats when all are scalar values. -/
def Expressible : Encoding → List Nat → Prop
  | Encoding.Latin1, s => ∀ c ∈ s, c < 256
  | Encoding.UTF16, s => ∀ c ∈ s, ValidScalar c
  | Encoding.UTF16BE, s => ∀ c ∈ s, ValidScalar c
  | Encoding.UTF8, s => ∀ c ∈ s, ValidScalar c

/-- A continuation byte built as 128 plus a value below 64 satisfies the
continuation predicate. -/
theorem isCont_of_lt (x : Nat) (h : x < 64) : isCont (128 + x) = true := by
  simp only [isCont, Bool.and_eq_true, decide_eq_true_eq]
  omega

/-- Decoding one step from an encoded character yields that character and the
unconsumed remainder of the buffer. -/
theorem utf8Step_encodeChar (c : Nat) (h : ValidScalar c) (t : List Nat) :
    utf8Step (utf8EncodeChar c ++ t) = some (c, t) := by
  obtain ⟨h1, h2⟩ := h
  by_cases hc1 : c < 128
  · rw [utf8EncodeChar, if_pos hc1]
    simp only [List.cons_append, List.nil_append]
    rw [utf8Step, if_pos hc1]
  · by_cases hc2 : c < 2048
    · rw [utf8EncodeChar, if_neg hc1, if_pos hc2]
      have e2 : utf8Char2 (192 + c / 64) (128 + c % 64) = c := by
        rw [utf8Char2]
        omega
      have ec : utf8Cond2 (192 + c / 64) (128 + c % 64) :=
        ⟨isCont_of_lt _ (by omega), by rw [e2]; omega⟩
      simp only [List.cons_append, List.nil_append]
      rw [utf8Step, if_neg (by omega), if_neg (by omega),
        if_pos (show 192 + c / 64 < 224 by omega), utf8Step2, if_pos ec, e2]
    · by_cases hc3 : c < 65536
      · rw [utf8EncodeChar, if_neg hc1, if_neg hc2, if_pos hc3]
        have e3 : utf8Char3 (224 + c / 4096) (128 + c / 64 % 64) (128 + c % 64) = c := by
          rw [utf8Char3]
          omega
        have ec : utf8Cond3 (224 + c / 4096) (128 + c / 64 % 64) (128 + c % 64) :=
          ⟨isCont_of_lt _ (by omega), isCont_of_lt _ (by omega), by rw [e3]; omega,
            by rw [e3]; omega⟩
        simp only [List.cons_append, List.nil_append]
        rw [utf8Step, if_neg (by omega), if_neg (by omega), if_neg (by omega),
          if_pos (show 224 + c / 4096 < 240 by omega), utf8Step3, if_pos ec, e3]
      · rw [utf8EncodeChar, if_neg hc1, if_neg hc2, if_neg hc3]
        have e4 : utf8Char4 (240 + c / 262144) (128 + c / 4096 % 64) (128 + c / 64 % 64)
            (128 + c % 64) = c := by
          rw [utf8Char4]
          omega
        have ec : utf8Cond4 (240 + c / 262144) (128 + c / 4096 % 64) (128 + c / 64 % 64)
            (128 + c % 64) :=
          ⟨isCont_of_lt _ (by omega), isCont_of_lt _ (by omega), isCont_of_lt _ (by omega),
            by rw [e4]; omega, by rw [e4]; omega⟩
        simp only [List.cons_append, List.nil_append]
        rw [utf8Step, if_neg (by omega), if_neg (by omega), if_neg (by omega),
          if_neg (by omega), if_pos (show 240 + c / 262144 < 248 by omega), utf8Step4,
          if_pos ec, e4]

/-- With enough fuel the decoding loop undoes UTF-8 encoding. -/
theorem utf8DecodeF_encode (s : List Nat) (h : ∀ c ∈ s, ValidScalar c) :
    ∀ fuel, (utf8Encode s).length ≤ fuel → utf8DecodeF fuel (utf8Encode s) = some s := by
  induction s with
  | nil =>
    intro fuel _
    cases fuel <;> rfl
  | cons c cs ih =>
    intro fuel hfuel
    have hc := h c (List.mem_cons_self c cs)
    have hcs : ∀ x ∈ cs, ValidScalar x := fun x hx => h x (List.mem_cons_of_mem c hx)
    rw [utf8Encode] at hfuel ⊢
    have hne : 1 ≤ (utf8EncodeChar c).length := by
      rw [utf8EncodeChar]
      split_ifs <;> simp
    rw [List.length_append] at hfuel
    obtain ⟨k, rfl⟩ : ∃ k, fuel = k + 1 := by
      cases fuel with
      | zero => omega
      | succ k => exact ⟨k, rfl⟩
    obtain ⟨b0, r0, hb⟩ : ∃ b0 r0, utf8EncodeChar c ++ utf8Encode cs = b0 :: r0 := by
      cases hx : utf8EncodeChar c ++ utf8Encode cs with
      | nil =>
        have hL := congrArg List.length hx
        rw [List.length_append] at hL
        simp only [List.length_nil] at hL
        omega
      | cons b0 r0 => exact ⟨b0, r0, rfl⟩
    rw [hb, utf8DecodeF, ← hb, utf8Step_encodeChar c hc]
    show (utf8DecodeF k (utf8Encode cs)).map (fun s => c :: s) = some (c :: cs)
    rw [ih hcs k (by omega)]
    rfl

/-- UTF-8 decoding undoes UTF-8 encoding on strings of scalar values. -/
theorem utf8Decode_encode (s : List Nat) (h : ∀ c ∈ s, ValidScalar c) :
    utf8Decode (utf8Encode s) = some s :=
  utf8DecodeF_encode s h (utf8Encode s).length le_rfl

/-- One step unfolding of the UTF-16 unit decoder on a nonempty buffer. -/
theorem utf16DecodeUnits_cons (u : Nat) (rest : List Nat) :
    utf16DecodeUnits (u :: rest) =
      (if u < 55296 ∨ 57344 ≤ u then (utf16DecodeUnits rest).map (fun s => u :: s)
       else if u < 56320 then
         match rest with
         | u2 :: rest2 =>
           if 56320 ≤ u2 ∧ u2 < 57344 then
             (utf16DecodeUnits rest2).map (fun s => utf16Pair u u2 :: s)
           else none
         | [] => none
       else none) := by
  rw [utf16DecodeUnits.eq_def]

/-- Decoding one encoded character from the front of a unit buffer succeeds
and leaves the rest of the buffer to be decoded. -/
theorem utf16DecodeUnits_encodeChar (c : Nat) (h : ValidScalar c) (t : List Nat) :
    utf16DecodeUnits (utf16EncodeChar c ++ t) =
      (utf16DecodeUnits t).map (fun s => c :: s) := by
  obtain ⟨h1, h2⟩ := h
  by_cases hc : c < 65536
  · rw [utf16EncodeChar, if_pos hc]
    simp only [List.cons_append, List.nil_append]
    rw [utf16DecodeUnits_cons, if_pos h2]
  · rw [utf16EncodeChar, if_neg hc]
    have e1 : ¬ (55296 + (c - 65536) / 1024 < 55296 ∨ 57344 ≤ 55296 + (c - 65536) / 1024) := by
      omega
    have e2 : 55296 + (c - 65536) / 1024 < 56320 := by omega
    have e3 : 56320 ≤ 56320 + (c - 65536) % 1024 ∧ 56320 + (c - 65536) % 1024 < 57344 := by
      omega
    have e4 : utf16Pair (55296 + (c - 65536) / 1024) (56320 + (c - 65536) % 1024) = c := by
      rw [utf16Pair]
      omega
    simp only [List.cons_append, List.nil_append]
    rw [utf16DecodeUnits_cons, if_neg e1, if_pos e2]
    show (if 56320 ≤ 56320 + (c - 65536) % 1024 ∧ 56320 + (c - 65536) % 1024 < 57344 then
      (utf16DecodeUnits t).map
        (fun s => utf16Pair (55296 + (c - 65536) / 1024) (56320 + (c - 65536) % 1024) :: s)
      else none) = (utf16DecodeUnits t).map (fun s => c :: s)
    rw [if_pos e3, e4]

/-- UTF-16 unit decoding undoes unit encoding on strings of scalar values. -/
theorem utf16DecodeUnits_encode (s : List Nat) (h : ∀ c ∈ s, ValidScalar c) :
    utf16DecodeUnits (utf16EncodeUnits s) = some s := by
  induction s with
  | nil => rfl
  | cons c cs ih =>
    rw [utf16EncodeUnits, utf16DecodeUnits_encodeChar c (h c (List.mem_cons_self c cs)),
      ih (fun x hx => h x (List.mem_cons_of_mem c hx))]
    rfl

/-- Pairing bytes back into big-endian units undoes byte serialization. -/
theorem unitsOfBytesBE_bytesOfUnits (us : List Nat) :
    unitsOfBytesBE (bytesOfUnitsBE us) = some us := by
  induction us with
  | nil => rfl
  | cons u rest ih =>
    rw [bytesOfUnitsBE, unitsOfBytesBE, ih]
    have : u / 256 * 256 + u % 256 = u := by omega
    simp [this]

/-- C7: for every supported text encoding, decoding the encoding of a string
expressible in that encoding yields the original string; and encoding a
string containing code points outside the Latin1 range with Latin1 selected
fails. -/
theorem text_encoding_roundtrip :
    (∀ (e : Encoding) (s : List Nat), Expressible e s →
      ∃ bs, encodeText e s = some bs ∧ decodeText e bs = some s) ∧
    (∀ s : List Nat, (∃ c ∈ s, 256 ≤ c) → encodeText Encoding.Latin1 s = none) := by
  constructor
  · intro e s hs
    cases e with
    | Latin1 =>
      refine ⟨s, ?_, rfl⟩
      show latin1Encode s = some s
      have hs2 : ∀ c ∈ s, c < 256 := hs
      rw [latin1Encode, if_pos hs2]
    | UTF16 =>
      refine ⟨utf16Encode s, rfl, ?_⟩
      show utf16Decode (utf16Encode s) = some s
      rw [utf16Encode, utf16Decode, if_pos ⟨rfl, rfl⟩, unitsOfBytesBE_bytesOfUnits]
      show utf16DecodeUnits (utf16EncodeUnits s) = some s
      exact utf16DecodeUnits_encode s hs
    | UTF16BE =>
      refine ⟨utf16beEncode s, rfl, ?_⟩
      show utf16beDecode (utf16beEncode s) = some s
      rw [utf16beDecode, utf16beEncode, unitsOfBytesBE_bytesOfUnits]
      show utf16DecodeUnits (utf16EncodeUnits s) = some s
      exact utf16DecodeUnits_encode s hs
    | UTF8 =>
      refine ⟨utf8Encode s, rfl, ?_⟩
      show utf8Decode (utf8Encode s) = some s
      exact utf8Decode_encode s hs
  · intro s hex
    obtain ⟨c, hcm, h256⟩ := hex
    show latin1Encode s = none
    rw [latin1Encode, if_neg]
    intro hall
    exact absurd (hall c hcm) (by omega)

/-- Evaluation of the encoding round trip at concrete strings: a UTF-8
round trip through a multi byte character, and a Latin1 rejection. -/
theorem text_encoding_roundtrip_witness :
    (∃ bs, encodeText Encoding.UTF8 [72, 105, 128514] = some bs ∧
      decodeText Encoding.UTF8 bs = some [72, 105, 128514]) ∧
    encodeText Encoding.Latin1 [72, 960] = none :=
  ⟨text_encoding_roundtrip.1 Encoding.UTF8 [72, 105, 128514]
      (show ∀ c ∈ ([72, 105, 128514] : List Nat), ValidScalar c by decide),
   text_encoding_roundtrip.2 [72, 960] ⟨960, by decide, by decide⟩⟩

/-! ## Tag detection and removal over a byte-level file model

A file is modelled as its list of bytes. -/

/-- Modelled from the spec: an ID3v1 tag is a fixed 128 byte record at the
end of the file whose first three bytes are the magic "TAG" (bytes
84, 65, 71; spec sections 1 and 6). This is the ID3v1 candidate check. -/
def v1Present (f : List Nat) : Bool :=
  decide (128 ≤ f.length) && decide ((f.drop (f.length - 128)).take 3 = [84, 65, 71])

/-- Modelled from the spec: removing the ID3v1 tag truncates the final 128
bytes while they form an ID3v1 tag, so that afterwards no ID3v1 tag is
present (doc comment of src/v1v2.rs `write_to_file`: any ID3v1 tag present
"will be REMOVED"). -/
def removeAllV1 (f : List Nat) : List Nat :=
  if h : v1Present f = true then removeAllV1 (f.take (f.length - 128)) else f
termination_by f.length
decreasing_by
  simp only [v1Present, Bool.and_eq_true, decide_eq_true_eq] at h
  simp only [List.length_take]
  omega

/-- After removal no ID3v1 tag is present. -/
theorem v1Present_removeAllV1 (f : List Nat) : v1Present (removeAllV1 f) = false := by
  induction f using removeAllV1.induct with
  | case1 f h ih =>
    rw [removeAllV1, dif_pos h]
    exact ih
  | case2 f h =>
    rw [removeAllV1, dif_neg h]
    rw [Bool.not_eq_true] at h
    exact h

/-- A file whose last 128 bytes are absent of the magic is left unchanged. -/
theorem removeAllV1_of_absent (f : List Nat) (h : v1Present f = false) :
    removeAllV1 f = f := by
  rw [removeAllV1, dif_neg]
  rw [h]
  exact Bool.false_ne_true

/-- Appending a 128 byte record starting with the magic makes the ID3v1
candidate check succeed. -/
theorem v1Present_append_tag (xs v1tag : List Nat) (h128 : v1tag.length = 128)
    (htag : v1tag.take 3 = [84, 65, 71]) : v1Present (xs ++ v1tag) = true := by
  simp only [v1Present, Bool.and_eq_true, decide_eq_true_eq]
  constructor
  · rw [List.length_append]
    omega
  · rw [List.length_append, h128]
    have he : xs.length + 128 - 128 = xs.length := by omega
    rw [he, List.drop_left]
    exact htag

/-- Removal strips a trailing 128 byte tag record and continues. -/
theorem removeAllV1_append_tag (xs v1tag : List Nat) (h128 : v1tag.length = 128)
    (htag : v1tag.take 3 = [84, 65, 71]) :
    removeAllV1 (xs ++ v1tag) = removeAllV1 xs := by
  have harg : (xs ++ v1tag).take ((xs ++ v1tag).length - 128) = xs := by
    rw [List.length_append, h128]
    have he : xs.length + 128 - 128 = xs.length := by omega
    rw [he, List.take_left]
  rw [removeAllV1, dif_pos (v1Present_append_tag xs v1tag h128 htag), harg]

/-- Modelled from the spec: the ID3v2 candidate check reads the first bytes
and requires the magic "ID3" (bytes 73, 68, 51) and a supported major
version of 2, 3 or 4 (spec section 4.6, step 1). -/
def isV2Candidate (f : List Nat) : Bool :=
  decide (10 ≤ f.length) && decide (f.take 3 = [73, 68, 51]) &&
    (f.getD 3 0 == 2 || f.getD 3 0 == 3 || f.getD 3 0 == 4)

/-- Modelled from the spec: the end offset of the ID3v2 tag region is 10 plus
the declared syncsafe size, plus 10 more when the footer flag (bit 4 of the
flags byte at offset 5) is set (spec section 4.6, step 2). -/
def v2TagEnd (f : List Nat) : Nat :=
  (match decodeSyncsafe [f.getD 6 0, f.getD 7 0, f.getD 8 0, f.getD 9 0] with
   | some sz => 10 + sz
   | none => 10) +
    (if (f.getD 5 0).testBit 4 then 10 else 0)

/-- Modelled from the spec: ID3v2 removal drops the tag region when the
candidate check succeeds, reporting whether a tag was present. -/
def removeV2 (f : List Nat) : Bool × List Nat :=
  if isV2Candidate f then (true, f.drop (v2TagEnd f)) else (false, f)

/-- The presence match of src/v1v2.rs (lines 11 to 16 and 82 to 87), taking
the ID3v1 presence first and the ID3v2 presence second. -/
def formatVersionOf : Bool → Bool → FormatVersion
  | false, false => FormatVersion.None
  | true, false => FormatVersion.Id3v1
  | false, true => FormatVersion.Id3v2
  | true, true => FormatVersion.Both

/-- Embedded from src/v1v2.rs `is_candidate` (lines 8 to 17): query the
ID3v2 candidate check, then the ID3v1 candidate check, and combine the two
presence booleans; in this byte-level model the underlying checks cannot
fail, so the result is always ok. -/
def is_candidate (f : List Nat) : Except Error FormatVersion :=
  let v2 := isV2Candidate f
  let v1 := v1Present f
  Except.ok (formatVersionOf v1 v2)

/-- Embedded from src/v1v2.rs `remove_from_path` (lines 79 to 88): remove the
ID3v2 tag, then the ID3v1 tag, and report the prior presence state; the two
removers are modelled from the spec. The second component is the resulting
file. -/
def remove_from_path (f : List Nat) : FormatVersion × List Nat :=
  let r2 := removeV2 f
  let v1 := v1Present r2.2
  (formatVersionOf v1 r2.1, removeAllV1 r2.2)

/-- C3: is_candidate returns None, Id3v1, Id3v2 or Both exactly according to
which of the two tag magics are detected in the file, Both when both are
present and None when neither is. -/
theorem is_candidate_formats (f : List Nat) :
    (is_candidate f = Except.ok FormatVersion.None ↔
      v1Present f = false ∧ isV2Candidate f = false) ∧
    (is_candidate f = Except.ok FormatVersion.Id3v1 ↔
      v1Present f = true ∧ isV2Candidate f = false) ∧
    (is_candidate f = Except.ok FormatVersion.Id3v2 ↔
      v1Present f = false ∧ isV2Candidate f = true) ∧
    (is_candidate f = Except.ok FormatVersion.Both ↔
      v1Present f = true ∧ isV2Candidate f = true) := by
  cases h1 : v1Present f <;> cases h2 : isV2Candidate f <;>
    simp [is_candidate, formatVersionOf, h1, h2]

/-- A concrete file holding an ID3v2 header followed by an ID3v1 record. -/
def sampleBothFile : List Nat :=
  [73, 68, 51, 4, 0, 0, 0, 0, 0, 0] ++ [84, 65, 71] ++ List.replicate 125 7

set_option maxRecDepth 4000 in
/-- Evaluation of the detection characterization on a concrete file carrying
both magics. -/
theorem is_candidate_formats_witness :
    is_candidate sampleBothFile = Except.ok FormatVersion.Both :=
  (is_candidate_formats sampleBothFile).2.2.2.mpr (by decide)

/-- Zeta-free form of the removal orchestration. -/
theorem remove_from_path_eq (f : List Nat) :
    remove_from_path f =
      (formatVersionOf (v1Present (removeV2 f).2) (removeV2 f).1,
        removeAllV1 (removeV2 f).2) := rfl

/-- C4: on a file decomposing into an optional ID3v2 tag region, filler, and
an optional trailing ID3v1 record, remove_from_path removes both tags,
returns the FormatVersion describing which of the two were present before
the call, and leaves the filler bytes byte-identical. -/
theorem remove_from_path_spec (v2tag middle v1tag : List Nat)
    (hv2 : (v2tag = [] ∧ isV2Candidate (v2tag ++ middle ++ v1tag) = false) ∨
           (isV2Candidate (v2tag ++ middle ++ v1tag) = true ∧
             v2TagEnd (v2tag ++ middle ++ v1tag) = v2tag.length))
    (hv1 : (v1tag = [] ∧ v1Present (v2tag ++ middle ++ v1tag) = false ∧
             v1Present middle = false) ∨
           (v1tag.length = 128 ∧ v1tag.take 3 = [84, 65, 71] ∧ v1Present middle = false)) :
    remove_from_path (v2tag ++ middle ++ v1tag) =
      (formatVersionOf (v1Present (v2tag ++ middle ++ v1tag))
        (isV2Candidate (v2tag ++ middle ++ v1tag)), middle) := by
  rcases hv2 with ⟨hv2e, hv2f⟩ | ⟨hv2t, hend⟩ <;>
    rcases hv1 with ⟨hv1e, hv1f, hmf⟩ | ⟨h128, htag, hmf⟩
  · subst hv2e
    subst hv1e
    simp only [List.nil_append, List.append_nil] at hv2f hv1f ⊢
    rw [remove_from_path_eq, removeV2, if_neg (by rw [hv2f]; exact Bool.false_ne_true)]
    show (formatVersionOf (v1Present middle) false, removeAllV1 middle) =
      (formatVersionOf (v1Present middle) (isV2Candidate middle), middle)
    rw [removeAllV1_of_absent middle hv1f, hv2f]
  · subst hv2e
    simp only [List.nil_append] at hv2f ⊢
    rw [remove_from_path_eq, removeV2, if_neg (by rw [hv2f]; exact Bool.false_ne_true)]
    show (formatVersionOf (v1Present (middle ++ v1tag)) false, removeAllV1 (middle ++ v1tag)) =
      (formatVersionOf (v1Present (middle ++ v1tag)) (isV2Candidate (middle ++ v1tag)), middle)
    rw [removeAllV1_append_tag middle v1tag h128 htag, removeAllV1_of_absent middle hmf, hv2f]
  · subst hv1e
    simp only [List.append_nil] at hv2t hend hv1f ⊢
    rw [remove_from_path_eq, removeV2, if_pos hv2t]
    show (formatVersionOf (v1Present ((v2tag ++ middle).drop (v2TagEnd (v2tag ++ middle)))) true,
        removeAllV1 ((v2tag ++ middle).drop (v2TagEnd (v2tag ++ middle)))) =
      (formatVersionOf (v1Present (v2tag ++ middle)) (isV2Candidate (v2tag ++ middle)), middle)
    rw [hend, List.drop_left, removeAllV1_of_absent middle hmf, hv2t, hv1f, hmf]
  · rw [remove_from_path_eq, removeV2, if_pos hv2t]
    show (formatVersionOf
        (v1Present ((v2tag ++ middle ++ v1tag).drop (v2TagEnd (v2tag ++ middle ++ v1tag)))) true,
        removeAllV1 ((v2tag ++ middle ++ v1tag).drop (v2TagEnd (v2tag ++ middle ++ v1tag)))) =
      (formatVersionOf (v1Present (v2tag ++ middle ++ v1tag))
        (isV2Candidate (v2tag ++ middle ++ v1tag)), middle)
    have hdrop : (v2tag ++ middle ++ v1tag).drop v2tag.length = middle ++ v1tag := by
      rw [List.append_assoc, List.drop_left]
    have hvf : v1Present (v2tag ++ middle ++ v1tag) = true :=
      v1Present_append_tag (v2tag ++ middle) v1tag h128 htag
    rw [hend, hdrop, removeAllV1_append_tag middle v1tag h128 htag,
      removeAllV1_of_absent middle hmf, v1Present_append_tag middle v1tag h128 htag, hv2t, hvf]

set_option maxRecDepth 8000 in
/-- Evaluation of removal on a concrete file holding a 30 byte ID3v2 region,
three filler bytes and an ID3v1 record: both are reported and removed, and
the filler survives byte-identically. -/
theorem remove_from_path_spec_witness :
    remove_from_path (([73, 68, 51, 4, 0, 0, 0, 0, 0, 20] ++ List.replicate 20 9) ++
        [1, 2, 3] ++ ([84, 65, 71] ++ List.replicate 125 0)) =
      (FormatVersion.Both, [1, 2, 3]) := by
  have h := remove_from_path_spec ([73, 68, 51, 4, 0, 0, 0, 0, 0, 20] ++ List.replicate 20 9)
    [1, 2, 3] ([84, 65, 71] ++ List.replicate 125 0)
    (Or.inr (by decide)) (Or.inr (by decide))
  rw [h]
  decide

/-! ## Tags, frames and the read orchestration -/

/-- An ID3v2 frame: a canonical identifier and a raw body (spec section 3);
the typed content layer is not needed by the orchestration claims. -/
structure Frame where
  id : List Nat
  body : List Nat
  deriving DecidableEq, Repr

/-- An ID3v2 tag: its ordered frame sequence (spec section 3). -/
structure Tag where
  frames : List Frame
  deriving DecidableEq, Repr

/-- The three ID3v2 revisions a caller can select when writing
(src `Version`). -/
inductive Version where
  | Id3v22
  | Id3v23
  | Id3v24
  deriving DecidableEq, Repr

/-- Modelled from the spec: the fixed-offset fields of an ID3v1 record
(spec sections 1 and 6; the v1 module source is not under src/). -/
structure V1Tag where
  title : List Nat
  artist : List Nat
  album : List Nat
  year : List Nat
  comment : List Nat
  genre : Nat
  deriving DecidableEq, Repr

/-- Modelled from the spec: conversion of an ID3v1 record into a Tag carrying
the corresponding text frames (the `tag.into()` call in src/v1v2.rs
line 43). -/
def v1ToTag (t : V1Tag) : Tag :=
  ⟨[⟨[84, 73, 84, 50], 0 :: t.title⟩, ⟨[84, 80, 69, 49], 0 :: t.artist⟩,
    ⟨[84, 65, 76, 66], 0 :: t.album⟩, ⟨[84, 89, 69, 82], 0 :: t.year⟩,
    ⟨[67, 79, 77, 77], 0 :: t.comment⟩, ⟨[84, 67, 79, 78], [0, t.genre]⟩]⟩

/-- The NoTag error built at src/v1v2.rs lines 46 to 49 when neither version
is found. -/
def noTagError : Error :=
  ⟨ErrorKind.NoTag, "Neither a ID3v2 or ID3v1 tag was found"⟩

/-- Embedded from src/v1v2.rs `read_from` (lines 27 to 50), parametrized by
the results of the two tag readers it orchestrates: the ID3v2 read result
is inspected first; only a NoTag failure falls through to the ID3v1 result,
whose success is converted; and when both fail with NoTag the canned NoTag
error is returned. -/
def read_from (v2res : Except Error Tag) (v1res : Except Error V1Tag) : Except Error Tag :=
  match v2res with
  | Except.ok tag => Except.ok tag
  | Except.error e =>
    if e.kind = ErrorKind.NoTag then
      match v1res with
      | Except.ok tag => Except.ok (v1ToTag tag)
      | Except.error e1 =>
        if e1.kind = ErrorKind.NoTag then Except.error noTagError
        else Except.error e1
    else Except.error e

/-- Unfolding of read_from on a failed ID3v2 read. -/
theorem read_from_error (e : Error) (v1res : Except Error V1Tag) :
    read_from (Except.error e) v1res =
      (if e.kind = ErrorKind.NoTag then
        match v1res with
        | Except.ok tag => Except.ok (v1ToTag tag)
        | Except.error e1 =>
          if e1.kind = ErrorKind.NoTag then Except.error noTagError else Except.error e1
      else Except.error e) := rfl

/-- C1: read_from returns a successful ID3v2 read unchanged; a failed ID3v2
read falls through to the ID3v1 reader only when its kind is NoTag; and the
overall result is an error of kind NoTag exactly when both reads fail with
NoTag. -/
theorem read_from_order (v2res : Except Error Tag) (v1res : Except Error V1Tag) :
    (∀ t, v2res = Except.ok t → read_from v2res v1res = Except.ok t) ∧
    (∀ e, v2res = Except.error e → e.kind ≠ ErrorKind.NoTag →
      read_from v2res v1res = Except.error e) ∧
    ((∃ e, read_from v2res v1res = Except.error e ∧ e.kind = ErrorKind.NoTag) ↔
      ((∃ e, v2res = Except.error e ∧ e.kind = ErrorKind.NoTag) ∧
       (∃ e1, v1res = Except.error e1 ∧ e1.kind = ErrorKind.NoTag))) := by
  refine ⟨?_, ?_, ?_⟩
  · rintro t rfl
    rfl
  · rintro e rfl he
    rw [read_from_error, if_neg he]
  · cases v2res with
    | ok t => simp [read_from]
    | error e =>
      by_cases he : e.kind = ErrorKind.NoTag
      · cases v1res with
        | ok t1 => simp [read_from, he]
        | error e1 =>
          by_cases he1 : e1.kind = ErrorKind.NoTag
          · simp [read_from, he, he1, noTagError]
          · simp [read_from, he, he1]
      · simp [read_from, he]

/-- Evaluation of the read order at concrete reader results: a successful
ID3v2 read wins, and two NoTag failures produce a NoTag error. -/
theorem read_from_order_witness :
    read_from (Except.ok ⟨[]⟩) (Except.error noTagError) = Except.ok ⟨[]⟩ ∧
    (∃ e, read_from (Except.error ⟨ErrorKind.NoTag, "a"⟩)
        (Except.error ⟨ErrorKind.NoTag, "b"⟩) = Except.error e ∧
      e.kind = ErrorKind.NoTag) :=
  ⟨(read_from_order (Except.ok ⟨[]⟩) (Except.error noTagError)).1 ⟨[]⟩ rfl,
   (read_from_order (Except.error ⟨ErrorKind.NoTag, "a"⟩)
       (Except.error ⟨ErrorKind.NoTag, "b"⟩)).2.2.mpr
     ⟨⟨⟨ErrorKind.NoTag, "a"⟩, rfl, rfl⟩, ⟨⟨ErrorKind.NoTag, "b"⟩, rfl, rfl⟩⟩⟩

/-- C9: a non NoTag ID3v2 error is returned immediately and the ID3v1 reader
result is never consulted (the result does not depend on it); and a non
NoTag ID3v1 error is propagated rather than converted to NoTag. -/
theorem read_from_error_propagation :
    (∀ (e : Error) (v1res v1res2 : Except Error V1Tag), e.kind ≠ ErrorKind.NoTag →
      read_from (Except.error e) v1res = Except.error e ∧
      read_from (Except.error e) v1res = read_from (Except.error e) v1res2) ∧
    (∀ (e e1 : Error), e.kind = ErrorKind.NoTag → e1.kind ≠ ErrorKind.NoTag →
      read_from (Except.error e) (Except.error e1) = Except.error e1) := by
  constructor
  · intro e v1res v1res2 he
    constructor
    · rw [read_from_error, if_neg he]
    · rw [read_from_error, if_neg he, read_from_error, if_neg he]
  · intro e e1 he he1
    rw [read_from_error, if_pos he]
    show (if e1.kind = ErrorKind.NoTag then Except.error noTagError else Except.error e1) =
      Except.error e1
    rw [if_neg he1]

/-- Evaluation of the error propagation at concrete errors: an Io failure of
the ID3v2 read is returned as is, and a Parsing failure of the ID3v1 read
survives a NoTag failure of the ID3v2 read. -/
theorem read_from_error_propagation_witness :
    read_from (Except.error ⟨ErrorKind.Io, "io"⟩) (Except.ok ⟨[], [], [], [], [], 0⟩) =
      Except.error ⟨ErrorKind.Io, "io"⟩ ∧
    read_from (Except.error ⟨ErrorKind.NoTag, "none"⟩) (Except.error ⟨ErrorKind.Parsing, "bad"⟩) =
      Except.error ⟨ErrorKind.Parsing, "bad"⟩ :=
  ⟨(read_from_error_propagation.1 ⟨ErrorKind.Io, "io"⟩ (Except.ok ⟨[], [], [], [], [], 0⟩)
      (Except.ok ⟨[], [], [], [], [], 0⟩) (by intro hx; exact absurd hx (by decide))).1,
   read_from_error_propagation.2 ⟨ErrorKind.NoTag, "none"⟩ ⟨ErrorKind.Parsing, "bad"⟩ rfl
     (by intro hx; exact absurd hx (by decide))⟩

/-! ## Tag serialization, parsing and the write orchestration -/

/-- Big-endian 3 byte encoding of an ID3v2.2 frame size. -/
def be24 (n : Nat) : List Nat := [n / 65536 % 256, n / 256 % 256, n % 256]

/-- Big-endian 4 byte encoding of a plain (not syncsafe) ID3v2.3 frame
size. -/
def be32 (n : Nat) : List Nat :=
  [n / 16777216 % 256, n / 65536 % 256, n / 256 % 256, n % 256]

/-- Modelled from the spec: serializing one frame per version (spec section
4.4): a 3 byte legacy id (mapped through the registry) and 3 byte size for
v2.2; a 4 byte id, plain big-endian 4 byte size and two zero flag bytes for
v2.3; a 4 byte id, syncsafe size and two zero flag bytes for v2.4. A frame
whose identifier has no legacy mapping is unrepresentable in v2.2 and
reported as a failure; frames are written with default flags. -/
def serializeFrame (toLegacy : List Nat → Option (List Nat)) :
    Version → Frame → Option (List Nat)
  | Version.Id3v22, fr =>
    match toLegacy fr.id with
    | some lid =>
      if fr.body.length < 16777216 then some (lid ++ be24 fr.body.length ++ fr.body) else none
    | none => none
  | Version.Id3v23, fr =>
    if fr.body.length < 4294967296 then
      some (fr.id ++ be32 fr.body.length ++ [0, 0] ++ fr.body)
    else none
  | Version.Id3v24, fr =>
    if fr.body.length < 268435456 then
      some (fr.id ++ encodeSyncsafe fr.body.length ++ [0, 0] ++ fr.body)
    else none

/-- Serializing a frame sequence with a given per-frame serializer; any
single frame failure aborts the write (spec section 7). -/
def serializeFramesWith (sf : Frame → Option (List Nat)) : List Frame → Option (List Nat)
  | [] => some []
  | fr :: rest =>
    match sf fr, serializeFramesWith sf rest with
    | some b, some bs => some (b ++ bs)
    | _, _ => none

/-- The major version byte of each revision. -/
def majorOf : Version → Nat
  | Version.Id3v22 => 2
  | Version.Id3v23 => 3
  | Version.Id3v24 => 4

/-- Modelled from the spec: serializing a whole tag produces the 10 byte
header (magic "ID3", major version, revision 0, flags 0, syncsafe size of
the frame sequence) followed by the frames; no padding, footer or whole-tag
unsynchronisation is written (spec section 4.5). -/
def serializeTag (toLegacy : List Nat → Option (List Nat)) (v : Version) (t : Tag) :
    Option (List Nat) :=
  match serializeFramesWith (serializeFrame toLegacy v) t.frames with
  | some body =>
    if body.length < 268435456 then
      some ([73, 68, 51, majorOf v, 0, 0] ++ encodeSyncsafe body.length ++ body)
    else none
  | none => none

/-- Outcome of reading one frame header from the remaining tag region:
a malformed header, the start of padding, or one frame plus the unconsumed
remainder. -/
inductive FrameStep where
  | err : FrameStep
  | stop : FrameStep
  | frame : Frame → List Nat → FrameStep
  deriving DecidableEq, Repr

/-- Modelled from the spec: one v2.2 frame read, a 3 byte id and 3 byte
big-endian size; an all zero id signals padding; the legacy id is
normalized through the registry (spec sections 4.2 and 4.4). -/
def frameStep22 (toCanon : List Nat → Option (List Nat)) : List Nat → FrameStep
  | i0 :: i1 :: i2 :: s0 :: s1 :: s2 :: rest =>
    if i0 = 0 ∧ i1 = 0 ∧ i2 = 0 then FrameStep.stop
    else if s0 * 65536 + s1 * 256 + s2 ≤ rest.length then
      match toCanon [i0, i1, i2] with
      | some cid =>
        FrameStep.frame ⟨cid, rest.take (s0 * 65536 + s1 * 256 + s2)⟩
          (rest.drop (s0 * 65536 + s1 * 256 + s2))
      | none => FrameStep.err
    else FrameStep.err
  | [] => FrameStep.err
  | [_] => FrameStep.err
  | [_, _] => FrameStep.err
  | [_, _, _] => FrameStep.err
  | [_, _, _, _] => FrameStep.err
  | [_, _, _, _, _] => FrameStep.err

/-- Modelled from the spec: one v2.3 frame read, a 4 byte id, plain
big-endian 4 byte size and two flag bytes; an all zero id signals padding;
only default (zero) flags are modelled (spec section 4.4). -/
def frameStep23 : List Nat → FrameStep
  | i0 :: i1 :: i2 :: i3 :: s0 :: s1 :: s2 :: s3 :: f0 :: f1 :: rest =>
    if i0 = 0 ∧ i1 = 0 ∧ i2 = 0 ∧ i3 = 0 then FrameStep.stop
    else if f0 = 0 ∧ f1 = 0 ∧
        s0 * 16777216 + s1 * 65536 + s2 * 256 + s3 ≤ rest.length then
      FrameStep.frame ⟨[i0, i1, i2, i3], rest.take (s0 * 16777216 + s1 * 65536 + s2 * 256 + s3)⟩
        (rest.drop (s0 * 16777216 + s1 * 65536 + s2 * 256 + s3))
    else FrameStep.err
  | [] => FrameStep.err
  | [_] => FrameStep.err
  | [_, _] => FrameStep.err
  | [_, _, _] => FrameStep.err
  | [_, _, _, _] => FrameStep.err
  | [_, _, _, _, _] => FrameStep.err
  | [_, _, _, _, _, _] => FrameStep.err
  | [_, _, _, _, _, _, _] => FrameStep.err
  | [_, _, _, _, _, _, _, _] => FrameStep.err
  | [_, _, _, _, _, _, _, _, _] => FrameStep.err

/-- Modelled from the spec: one v2.4 frame read, a 4 byte id, syncsafe size
and two flag bytes; an all zero id signals padding; only default (zero)
flags are modelled (spec section 4.4). -/
def frameStep24 : List Nat → FrameStep
  | i0 :: i1 :: i2 :: i3 :: s0 :: s1 :: s2 :: s3 :: f0 :: f1 :: rest =>
    if i0 = 0 ∧ i1 = 0 ∧ i2 = 0 ∧ i3 = 0 then FrameStep.stop
    else
      match decodeSyncsafe [s0, s1, s2, s3] with
      | some sz =>
        if f0 = 0 ∧ f1 = 0 ∧ sz ≤ rest.length then
          FrameStep.frame ⟨[i0, i1, i2, i3], rest.take sz⟩ (rest.drop sz)
        else FrameStep.err
      | none => FrameStep.err
  | [] => FrameStep.err
  | [_] => FrameStep.err
  | [_, _] => FrameStep.err
  | [_, _, _] => FrameStep.err
  | [_, _, _, _] => FrameStep.err
  | [_, _, _, _, _] => FrameStep.err
  | [_, _, _, _, _, _] => FrameStep.err
  | [_, _, _, _, _, _, _] => FrameStep.err
  | [_, _, _, _, _, _, _, _] => FrameStep.err
  | [_, _, _, _, _, _, _, _, _] => FrameStep.err

/-- Modelled from the spec: frames are read sequentially until the region is
exhausted or padding starts (spec section 4.5); the fuel bounds the number
of frames and is instantiated with the region length, which every frame
read strictly decreases. -/
def parseFramesF (step : List Nat → FrameStep) : Nat → List Nat → Option (List Frame)
  | _, [] => some []
  | 0, _ :: _ => none
  | fuel + 1, b :: rest =>
    match step (b :: rest) with
    | FrameStep.stop => some []
    | FrameStep.err => none
    | FrameStep.frame fr r => (parseFramesF step fuel r).map (fun fs => fr :: fs)

/-- The frame reader selected by the major version byte. -/
def frameStepFor (toCanon : List Nat → Option (List Nat)) (major : Nat) :
    List Nat → FrameStep :=
  if major = 2 then frameStep22 toCanon
  else if major = 3 then frameStep23
  else frameStep24

/-- Modelled from the spec: reading a whole tag checks the magic and a
supported major version, decodes the syncsafe size, takes the declared
region and parses its frame sequence with the version's frame reader
(spec sections 4.5 and 4.6); failures carry the error kinds of spec
section 7. -/
def readTag (toCanon : List Nat → Option (List Nat)) (f : List Nat) : Except Error Tag :=
  match f with
  | m0 :: m1 :: m2 :: major :: _rev :: _flags :: s0 :: s1 :: s2 :: s3 :: rest =>
    if m0 = 73 ∧ m1 = 68 ∧ m2 = 51 then
      if major = 2 ∨ major = 3 ∨ major = 4 then
        match decodeSyncsafe [s0, s1, s2, s3] with
        | some sz =>
          if sz ≤ rest.length then
            match parseFramesF (frameStepFor toCanon major) (rest.take sz).length
                (rest.take sz) with
            | some fs => Except.ok ⟨fs⟩
            | none => Except.error ⟨ErrorKind.Parsing, "malformed frame"⟩
          else Except.error ⟨ErrorKind.Parsing, "truncated tag region"⟩
        | none => Except.error ⟨ErrorKind.Parsing, "corrupt syncsafe tag size"⟩
      else Except.error ⟨ErrorKind.UnsupportedVersion, "unsupported major version"⟩
    else Except.error ⟨ErrorKind.NoTag, "no ID3v2 magic"⟩
  | [] => Except.error ⟨ErrorKind.NoTag, "no ID3v2 magic"⟩
  | [_] => Except.error ⟨ErrorKind.NoTag, "no ID3v2 magic"⟩
  | [_, _] => Except.error ⟨ErrorKind.NoTag, "no ID3v2 magic"⟩
  | [_, _, _] => Except.error ⟨ErrorKind.NoTag, "no ID3v2 magic"⟩
  | [_, _, _, _] => Except.error ⟨ErrorKind.NoTag, "no ID3v2 magic"⟩
  | [_, _, _, _, _] => Except.error ⟨ErrorKind.NoTag, "no ID3v2 magic"⟩
  | [_, _, _, _, _, _] => Except.error ⟨ErrorKind.NoTag, "no ID3v2 magic"⟩
  | [_, _, _, _, _, _, _] => Except.error ⟨ErrorKind.NoTag, "no ID3v2 magic"⟩
  | [_, _, _, _, _, _, _, _] => Except.error ⟨ErrorKind.NoTag, "no ID3v2 magic"⟩
  | [_, _, _, _, _, _, _, _, _] => Except.error ⟨ErrorKind.NoTag, "no ID3v2 magic"⟩

/-- Well-formedness of a frame for a chosen target version: a proper
identifier (with a registry round trip for the v2.2 legacy form) and a body
small enough for the version's size field. -/
def WFFrame (toLegacy toCanon : List Nat → Option (List Nat)) : Version → Frame → Prop
  | Version.Id3v22, fr => ∃ lid, toLegacy fr.id = some lid ∧ lid.length = 3 ∧
      lid ≠ [0, 0, 0] ∧ toCanon lid = some fr.id ∧ fr.body.length < 16777216
  | Version.Id3v23, fr =>
    fr.id.length = 4 ∧ fr.id ≠ [0, 0, 0, 0] ∧ fr.body.length < 4294967296
  | Version.Id3v24, fr =>
    fr.id.length = 4 ∧ fr.id ≠ [0, 0, 0, 0] ∧ fr.body.length < 268435456

/-- Modelled from the spec: the end of the old tag region when writing; a
file that is not an ID3v2 candidate has an empty old region and the new tag
is inserted at the front (spec section 4.6). -/
def oldTagEnd (f : List Nat) : Nat := if isV2Candidate f then v2TagEnd f else 0

/-- Modelled from the spec: Tag::write_to_file serializes the tag and splices
it over the old tag region; a construction failure aborts before any bytes
are spliced into the store (spec sections 4.6 and 7). -/
def tagWriteOp (toLegacy : List Nat → Option (List Nat)) (v : Version) (t : Tag)
    (f : List Nat) : Except Error Unit × List Nat :=
  match serializeTag toLegacy v t with
  | some bytes => (Except.ok (), spliceTag f (oldTagEnd f) bytes)
  | none => (Except.error ⟨ErrorKind.UnsupportedFeature, "tag not representable"⟩, f)

/-- Modelled from the spec: v1::Tag::remove_from_file removes any ID3v1 tag
(doc comment of src/v1v2.rs `write_to_file`). -/
def v1RemoveOp (f : List Nat) : Except Error Unit × List Nat :=
  (Except.ok (), removeAllV1 f)

/-- Embedded from src/v1v2.rs `write_to_file` (lines 64 to 68), parametrized
by the two state-transforming operations it sequences: the ID3v2 tag write
runs first; its failure is returned and ID3v1 removal is not invoked;
otherwise ID3v1 removal runs on the written file. -/
def write_to_file_gen (writeV2 removeV1 : List Nat → Except Error Unit × List Nat)
    (f : List Nat) : Except Error Unit × List Nat :=
  match writeV2 f with
  | (Except.error e, f1) => (Except.error e, f1)
  | (Except.ok _, f1) => removeV1 f1

/-- The write orchestration of src/v1v2.rs instantiated with the modelled
codec operations. -/
def write_to_file (toLegacy : List Nat → Option (List Nat)) (v : Version) (t : Tag)
    (f : List Nat) : Except Error Unit × List Nat :=
  write_to_file_gen (tagWriteOp toLegacy v t) v1RemoveOp f

/-- Every list of length three is an explicit three element list. -/
theorem list_length_eq_three {α : Type} {l : List α} (h : l.length = 3) :
    ∃ a b c, l = [a, b, c] := by
  match l, h with
  | [a, b, c], _ => exact ⟨a, b, c, rfl⟩

/-- A serialized frame is never empty. -/
theorem serializeFrame_length (toLegacy : List Nat → Option (List Nat)) (v : Version)
    (fr : Frame) (b : List Nat) (hb : serializeFrame toLegacy v fr = some b) :
    1 ≤ b.length := by
  cases v with
  | Id3v22 =>
    cases hleg : toLegacy fr.id with
    | none => rw [serializeFrame, hleg] at hb; exact absurd hb Option.noConfusion
    | some lid =>
      have hb2 : (if fr.body.length < 16777216 then
          some (lid ++ be24 fr.body.length ++ fr.body) else none) = some b := by
        rw [← hb, serializeFrame, hleg]
      by_cases hlen : fr.body.length < 16777216
      · rw [if_pos hlen] at hb2
        obtain rfl := Option.some.inj hb2
        rw [be24]
        simp only [List.length_append, List.length_cons, List.length_nil]
        omega
      · rw [if_neg hlen] at hb2
        exact absurd hb2 Option.noConfusion
  | Id3v23 =>
    have hb2 : (if fr.body.length < 4294967296 then
        some (fr.id ++ be32 fr.body.length ++ [0, 0] ++ fr.body) else none) = some b := by
      rw [← hb, serializeFrame]
    by_cases hlen : fr.body.length < 4294967296
    · rw [if_pos hlen] at hb2
      obtain rfl := Option.some.inj hb2
      rw [be32]
      simp only [List.length_append, List.length_cons, List.length_nil]
      omega
    · rw [if_neg hlen] at hb2
      exact absurd hb2 Option.noConfusion
  | Id3v24 =>
    have hb2 : (if fr.body.length < 268435456 then
        some (fr.id ++ encodeSyncsafe fr.body.length ++ [0, 0] ++ fr.body) else none) =
        some b := by
      rw [← hb, serializeFrame]
    by_cases hlen : fr.body.length < 268435456
    · rw [if_pos hlen] at hb2
      obtain rfl := Option.some.inj hb2
      rw [encodeSyncsafe]
      simp only [List.length_append, List.length_cons, List.length_nil]
      omega
    · rw [if_neg hlen] at hb2
      exact absurd hb2 Option.noConfusion

/-- Reading one step from a serialized v2.4 frame yields that frame and the
unconsumed remainder. -/
theorem frameStep24_serialized (toLegacy : List Nat → Option (List Nat)) (fr : Frame)
    (b t : List Nat) (hid4 : fr.id.length = 4) (hidnz : fr.id ≠ [0, 0, 0, 0])
    (hb : serializeFrame toLegacy Version.Id3v24 fr = some b) :
    frameStep24 (b ++ t) = FrameStep.frame fr t := by
  have hb2 : (if fr.body.length < 268435456 then
      some (fr.id ++ encodeSyncsafe fr.body.length ++ [0, 0] ++ fr.body) else none) =
      some b := by
    rw [← hb, serializeFrame]
  by_cases hlen : fr.body.length < 268435456
  case neg =>
    rw [if_neg hlen] at hb2
    exact absurd hb2 Option.noConfusion
  rw [if_pos hlen] at hb2
  obtain rfl := Option.some.inj hb2
  obtain ⟨i0, i1, i2, i3, hid⟩ := list_length_eq_four hid4
  rw [hid, encodeSyncsafe]
  simp only [List.cons_append, List.nil_append, List.append_assoc]
  rw [frameStep24]
  have hnz : ¬(i0 = 0 ∧ i1 = 0 ∧ i2 = 0 ∧ i3 = 0) := by
    rw [hid] at hidnz
    rintro ⟨rfl, rfl, rfl, rfl⟩
    exact hidnz rfl
  rw [if_neg hnz, decodeSyncsafe_components fr.body.length hlen]
  show (if (0 : Nat) = 0 ∧ (0 : Nat) = 0 ∧ fr.body.length ≤ (fr.body ++ t).length then
      FrameStep.frame ⟨[i0, i1, i2, i3], (fr.body ++ t).take fr.body.length⟩
        ((fr.body ++ t).drop fr.body.length)
    else FrameStep.err) = FrameStep.frame fr t
  rw [if_pos ⟨rfl, rfl, by rw [List.length_append]; omega⟩, List.take_left, List.drop_left,
    ← hid]

/-- Reading one step from a serialized v2.3 frame yields that frame and the
unconsumed remainder. -/
theorem frameStep23_serialized (toLegacy : List Nat → Option (List Nat)) (fr : Frame)
    (b t : List Nat) (hid4 : fr.id.length = 4) (hidnz : fr.id ≠ [0, 0, 0, 0])
    (hb : serializeFrame toLegacy Version.Id3v23 fr = some b) :
    frameStep23 (b ++ t) = FrameStep.frame fr t := by
  have hb2 : (if fr.body.length < 4294967296 then
      some (fr.id ++ be32 fr.body.length ++ [0, 0] ++ fr.body) else none) = some b := by
    rw [← hb, serializeFrame]
  by_cases hlen : fr.body.length < 4294967296
  case neg =>
    rw [if_neg hlen] at hb2
    exact absurd hb2 Option.noConfusion
  rw [if_pos hlen] at hb2
  obtain rfl := Option.some.inj hb2
  obtain ⟨i0, i1, i2, i3, hid⟩ := list_length_eq_four hid4
  rw [hid, be32]
  simp only [List.cons_append, List.nil_append, List.append_assoc]
  rw [frameStep23]
  have hnz : ¬(i0 = 0 ∧ i1 = 0 ∧ i2 = 0 ∧ i3 = 0) := by
    rw [hid] at hidnz
    rintro ⟨rfl, rfl, rfl, rfl⟩
    exact hidnz rfl
  have hsz : fr.body.length / 16777216 % 256 * 16777216 + fr.body.length / 65536 % 256 * 65536 +
      fr.body.length / 256 % 256 * 256 + fr.body.length % 256 = fr.body.length := by
    omega
  rw [if_neg hnz, hsz, if_pos ⟨rfl, rfl, by rw [List.length_append]; omega⟩, List.take_left,
    List.drop_left, ← hid]

/-- Reading one step from a serialized v2.2 frame yields that frame, with its
canonical identifier restored through the registry, and the unconsumed
remainder. -/
theorem frameStep22_serialized (toLegacy toCanon : List Nat → Option (List Nat)) (fr : Frame)
    (b t : List Nat) (hP : WFFrame toLegacy toCanon Version.Id3v22 fr)
    (hb : serializeFrame toLegacy Version.Id3v22 fr = some b) :
    frameStep22 toCanon (b ++ t) = FrameStep.frame fr t := by
  obtain ⟨lid, hleg, hl3, hlnz, hcan, hlen⟩ := hP
  have hb2 : (if fr.body.length < 16777216 then
      some (lid ++ be24 fr.body.length ++ fr.body) else none) = some b := by
    rw [← hb, serializeFrame, hleg]
  rw [if_pos hlen] at hb2
  obtain rfl := Option.some.inj hb2
  obtain ⟨l0, l1, l2, hlid⟩ := list_length_eq_three hl3
  rw [hlid, be24]
  simp only [List.cons_append, List.nil_append, List.append_assoc]
  rw [frameStep22]
  have hnz : ¬(l0 = 0 ∧ l1 = 0 ∧ l2 = 0) := by
    rw [hlid] at hlnz
    rintro ⟨rfl, rfl, rfl⟩
    exact hlnz rfl
  have hsz : fr.body.length / 65536 % 256 * 65536 + fr.body.length / 256 % 256 * 256 +
      fr.body.length % 256 = fr.body.length := by
    omega
  rw [if_neg hnz, hsz, if_pos (by rw [List.length_append]; omega), ← hlid, hcan]
  show FrameStep.frame ⟨fr.id, (fr.body ++ t).take fr.body.length⟩
      ((fr.body ++ t).drop fr.body.length) = FrameStep.frame fr t
  rw [List.take_left, List.drop_left]

/-- With enough fuel the frame reading loop undoes frame serialization, for
any step function that undoes the per-frame serializer on frames of the
given class. -/
theorem parseFramesF_serializeWith (sf : Frame → Option (List Nat))
    (step : List Nat → FrameStep) (P : Frame → Prop)
    (hstep : ∀ fr, P fr → ∀ b t, sf fr = some b → step (b ++ t) = FrameStep.frame fr t)
    (hne : ∀ fr b, sf fr = some b → 1 ≤ b.length) :
    ∀ (fs : List Frame) (bs : List Nat), (∀ fr ∈ fs, P fr) →
      serializeFramesWith sf fs = some bs →
      ∀ fuel, bs.length ≤ fuel → parseFramesF step fuel bs = some fs := by
  intro fs
  induction fs with
  | nil =>
    intro bs _ hser fuel _
    rw [serializeFramesWith] at hser
    obtain rfl : ([] : List Nat) = bs := Option.some.inj hser
    cases fuel <;> rfl
  | cons fr rest ih =>
    intro bs hP hser fuel hfuel
    rw [serializeFramesWith] at hser
    cases hf : sf fr with
    | none =>
      rw [hf] at hser
      cases hr : serializeFramesWith sf rest <;> rw [hr] at hser <;> simp at hser
    | some b =>
      cases hr : serializeFramesWith sf rest with
      | none =>
        rw [hf, hr] at hser
        simp at hser
      | some restBytes =>
        rw [hf, hr] at hser
        have hbs : b ++ restBytes = bs := by
          have hx : some (b ++ restBytes) = some bs := hser
          exact Option.some.inj hx
        subst hbs
        have hb1 : 1 ≤ b.length := hne fr b hf
        rw [List.length_append] at hfuel
        obtain ⟨k, rfl⟩ : ∃ k, fuel = k + 1 := by
          cases fuel with
          | zero => omega
          | succ k => exact ⟨k, rfl⟩
        obtain ⟨b0, r0, hb0⟩ : ∃ b0 r0, b ++ restBytes = b0 :: r0 := by
          cases hx : b ++ restBytes with
          | nil =>
            have hL := congrArg List.length hx
            rw [List.length_append] at hL
            simp only [List.length_nil] at hL
            omega
          | cons b0 r0 => exact ⟨b0, r0, rfl⟩
        rw [hb0, parseFramesF, ← hb0,
          hstep fr (hP fr (List.mem_cons_self fr rest)) b restBytes hf]
        show (parseFramesF step k restBytes).map (fun fs => fr :: fs) = some (fr :: rest)
        rw [ih restBytes (fun x hx => hP x (List.mem_cons_of_mem fr hx)) hr k (by omega)]
        rfl

/-- Reading a serialized tag, with anything at all appended after it,
recovers exactly the tag that was written, for every target version. -/
theorem readTag_serialized (toLegacy toCanon : List Nat → Option (List Nat)) (v : Version)
    (t : Tag) (bytes suffix : List Nat)
    (hwf : ∀ fr ∈ t.frames, WFFrame toLegacy toCanon v fr)
    (hser : serializeTag toLegacy v t = some bytes) :
    readTag toCanon (bytes ++ suffix) = Except.ok t := by
  cases hfr : serializeFramesWith (serializeFrame toLegacy v) t.frames with
  | none =>
    rw [serializeTag, hfr] at hser
    exact absurd hser Option.noConfusion
  | some body =>
    have hser2 : (if body.length < 268435456 then
        some ([73, 68, 51, majorOf v, 0, 0] ++ encodeSyncsafe body.length ++ body)
        else none) = some bytes := by
      rw [← hser, serializeTag, hfr]
    by_cases hlen : body.length < 268435456
    case neg =>
      rw [if_neg hlen] at hser2
      exact absurd hser2 Option.noConfusion
    rw [if_pos hlen] at hser2
    obtain rfl := Option.some.inj hser2
    have hstep : ∀ fr, WFFrame toLegacy toCanon v fr → ∀ b t2,
        serializeFrame toLegacy v fr = some b →
        frameStepFor toCanon (majorOf v) (b ++ t2) = FrameStep.frame fr t2 := by
      cases v with
      | Id3v22 =>
        intro fr hP b t2 hb
        show frameStep22 toCanon (b ++ t2) = FrameStep.frame fr t2
        exact frameStep22_serialized toLegacy toCanon fr b t2 hP hb
      | Id3v23 =>
        intro fr hP b t2 hb
        show frameStep23 (b ++ t2) = FrameStep.frame fr t2
        exact frameStep23_serialized toLegacy fr b t2 hP.1 hP.2.1 hb
      | Id3v24 =>
        intro fr hP b t2 hb
        show frameStep24 (b ++ t2) = FrameStep.frame fr t2
        exact frameStep24_serialized toLegacy fr b t2 hP.1 hP.2.1 hb
    have hparse : parseFramesF (frameStepFor toCanon (majorOf v)) body.length body =
        some t.frames :=
      parseFramesF_serializeWith (serializeFrame toLegacy v) (frameStepFor toCanon (majorOf v))
        (WFFrame toLegacy toCanon v) hstep (serializeFrame_length toLegacy v) t.frames body
        hwf hfr body.length le_rfl
    have hmaj : majorOf v = 2 ∨ majorOf v = 3 ∨ majorOf v = 4 := by
      cases v <;> decide
    rw [encodeSyncsafe]
    simp only [List.cons_append, List.nil_append, List.append_assoc]
    rw [readTag, if_pos ⟨rfl, rfl, rfl⟩, if_pos hmaj,
      decodeSyncsafe_components body.length hlen]
    show (if body.length ≤ (body ++ suffix).length then
        match parseFramesF (frameStepFor toCanon (majorOf v))
            ((body ++ suffix).take body.length).length ((body ++ suffix).take body.length) with
        | some fs => Except.ok (Tag.mk fs)
        | none => Except.error (Error.mk ErrorKind.Parsing "malformed frame")
      else Except.error (Error.mk ErrorKind.Parsing "truncated tag region")) = Except.ok t
    rw [if_pos (by rw [List.length_append]; omega), List.take_left, hparse]

/-- C2: for every file decomposing into its old tag region, audio and an
optional trailing ID3v1 record, and every tag well formed for the chosen
version, a successful write_to_file replaces the tag region with the
serialized tag, leaves no ID3v1 tag in the file, and re-reading the file
yields exactly the tag that was written. -/
theorem write_read_roundtrip (toLegacy toCanon : List Nat → Option (List Nat)) (v : Version)
    (t : Tag) (f audio v1tag bytes : List Nat)
    (hwf : ∀ fr ∈ t.frames, WFFrame toLegacy toCanon v fr)
    (hser : serializeTag toLegacy v t = some bytes)
    (hsplit : f.drop (oldTagEnd f) = audio ++ v1tag)
    (hv1tag : v1tag = [] ∨ (v1tag.length = 128 ∧ v1tag.take 3 = [84, 65, 71]))
    (hclean : v1Present (bytes ++ List.replicate (oldTagEnd f - bytes.length) 0 ++ audio) =
      false) :
    write_to_file toLegacy v t f =
      (Except.ok (), bytes ++ List.replicate (oldTagEnd f - bytes.length) 0 ++ audio) ∧
    v1Present (write_to_file toLegacy v t f).2 = false ∧
    readTag toCanon (write_to_file toLegacy v t f).2 = Except.ok t := by
  have hw : tagWriteOp toLegacy v t f = (Except.ok (), spliceTag f (oldTagEnd f) bytes) := by
    rw [tagWriteOp, hser]
  have hsp : spliceTag f (oldTagEnd f) bytes =
      bytes ++ List.replicate (oldTagEnd f - bytes.length) 0 ++ (audio ++ v1tag) := by
    rw [spliceTag_eq, hsplit]
  have hres : removeAllV1
      (bytes ++ List.replicate (oldTagEnd f - bytes.length) 0 ++ (audio ++ v1tag)) =
      bytes ++ List.replicate (oldTagEnd f - bytes.length) 0 ++ audio := by
    rcases hv1tag with rfl | ⟨h128, htag⟩
    · rw [List.append_nil]
      exact removeAllV1_of_absent _ hclean
    · have hassoc : bytes ++ List.replicate (oldTagEnd f - bytes.length) 0 ++ (audio ++ v1tag) =
          (bytes ++ List.replicate (oldTagEnd f - bytes.length) 0 ++ audio) ++ v1tag := by
        simp only [List.append_assoc]
      rw [hassoc, removeAllV1_append_tag _ v1tag h128 htag]
      exact removeAllV1_of_absent _ hclean
  have hfile : write_to_file toLegacy v t f =
      (Except.ok (), bytes ++ List.replicate (oldTagEnd f - bytes.length) 0 ++ audio) := by
    rw [write_to_file, write_to_file_gen, hw, hsp]
    show v1RemoveOp
        (bytes ++ List.replicate (oldTagEnd f - bytes.length) 0 ++ (audio ++ v1tag)) = _
    rw [v1RemoveOp, hres]
  refine ⟨hfile, ?_, ?_⟩
  · rw [hfile]
    exact hclean
  · rw [hfile]
    show readTag toCanon (bytes ++ List.replicate (oldTagEnd f - bytes.length) 0 ++ audio) =
      Except.ok t
    have hassoc2 : bytes ++ List.replicate (oldTagEnd f - bytes.length) 0 ++ audio =
        bytes ++ (List.replicate (oldTagEnd f - bytes.length) 0 ++ audio) := by
      simp only [List.append_assoc]
    rw [hassoc2]
    exact readTag_serialized toLegacy toCanon v t bytes _ hwf hser

/-- A tag holding one artist frame TPE1 with Latin1 text "High Contrast". -/
def highContrastTag : Tag :=
  ⟨[⟨[84, 80, 69, 49], [0, 72, 105, 103, 104, 32, 67, 111, 110, 116, 114, 97, 115, 116]⟩]⟩

/-- A file carrying a 30 byte ID3v2 region, three audio bytes and an ID3v1
record. -/
def sampleWriteFile : List Nat :=
  ([73, 68, 51, 4, 0, 0, 0, 0, 0, 20] ++ List.replicate 20 9) ++ [1, 2, 3] ++
    ([84, 65, 71] ++ List.replicate 125 0)

/-- The v2.4 serialization of the artist tag. -/
def highContrastBytes : List Nat :=
  [73, 68, 51, 4, 0, 0, 0, 0, 0, 24, 84, 80, 69, 49, 0, 0, 0, 14, 0, 0,
   0, 72, 105, 103, 104, 32, 67, 111, 110, 116, 114, 97, 115, 116]

set_option maxRecDepth 8000 in
/-- Evaluation of the write and re-read round trip on the concrete artist
tag: after the write no ID3v1 tag remains and the artist reads back. -/
theorem write_read_roundtrip_witness :
    readTag (fun _ => none)
        (write_to_file (fun _ => none) Version.Id3v24 highContrastTag sampleWriteFile).2 =
      Except.ok highContrastTag ∧
    v1Present
        (write_to_file (fun _ => none) Version.Id3v24 highContrastTag sampleWriteFile).2 =
      false := by
  have h := write_read_roundtrip (fun _ => none) (fun _ => none) Version.Id3v24 highContrastTag
    sampleWriteFile [1, 2, 3] ([84, 65, 71] ++ List.replicate 125 0) highContrastBytes
    (by intro fr hfr
        simp only [highContrastTag, List.mem_singleton] at hfr
        subst hfr
        exact ⟨by decide, by decide, by decide⟩)
    (by decide) (by decide) (Or.inr (by decide)) (by decide)
  exact ⟨h.2.2, h.2.1⟩

/-- C10: in write_to_file the ID3v2 write runs first; when it fails with an
error, having left the file as it was (a construction failure aborts before
any bytes are spliced, spec section 7), the orchestration returns that
error, ID3v1 removal is never applied (any removal operation yields the
same result), and the ID3v1 presence of the file is unchanged. -/
theorem write_to_file_error_first
    (writeV2 removeV1 removeV1b : List Nat → Except Error Unit × List Nat)
    (f : List Nat) (e : Error) (hfail : writeV2 f = (Except.error e, f)) :
    write_to_file_gen writeV2 removeV1 f = (Except.error e, f) ∧
    write_to_file_gen writeV2 removeV1 f = write_to_file_gen writeV2 removeV1b f ∧
    v1Present (write_to_file_gen writeV2 removeV1 f).2 = v1Present f := by
  have hgen : ∀ r : List Nat → Except Error Unit × List Nat,
      write_to_file_gen writeV2 r f = (Except.error e, f) := by
    intro r
    rw [write_to_file_gen, hfail]
  refine ⟨hgen removeV1, ?_, ?_⟩
  · rw [hgen removeV1, hgen removeV1b]
  · rw [hgen removeV1]

/-- Evaluation of the failing-write orchestration: a v2.2 write of a frame
with no legacy identifier mapping fails and the ID3v1 record at the end of
the file survives untouched. -/
theorem write_to_file_error_first_witness :
    write_to_file (fun _ => none) Version.Id3v22 ⟨[⟨[84, 73, 84, 50], [0]⟩]⟩
        [84, 65, 71, 1, 2] =
      (Except.error ⟨ErrorKind.UnsupportedFeature, "tag not representable"⟩,
        [84, 65, 71, 1, 2]) :=
  (write_to_file_error_first
    (tagWriteOp (fun _ => none) Version.Id3v22 ⟨[⟨[84, 73, 84, 50], [0]⟩]⟩)
    v1RemoveOp v1RemoveOp [84, 65, 71, 1, 2]
    ⟨ErrorKind.UnsupportedFeature, "tag not representable"⟩ rfl).1

end Id3
